import Mathlib

/-!
Verification of the maplibre-gl-streetview control against its design notes.

The development shallowly embeds the parts of the TypeScript source that the
checked properties are about:

* the geo / helper utilities (`normalizeHeading`, `findClosestPoint`),
* the URL building of `src/lib/utils/api.ts` (`buildUrl` and the
  `URLSearchParams` form-urlencoded serialization it delegates to),
* the two providers' `queryImagery` / `findNearestImagery` (network I/O is
  abstracted as an explicit fetch outcome, respectively a query oracle), and
* the `StreetViewControl` orchestrator's state record and the methods that
  mutate it, each returning the successor state together with the list of
  events it emits (and, for `setProvider`, the lookup it fires).

JavaScript numbers are embedded as rationals (`ℚ`); the examples the claims
exercise stay well inside the range where double arithmetic is exact.
-/

/-- A geographic coordinate, mirroring maplibre's `LngLat`. -/
structure LngLat where
  lng : ℚ
  lat : ℚ
deriving DecidableEq, Repr

/-- `ProviderType` from `core/types.ts`: the two imagery providers. -/
inductive ProviderType where
  | google
  | mapillary
deriving DecidableEq, Repr

/-- A JavaScript `Date`, as produced from either a numeric timestamp
(`new Date(number)`, Mapillary) or a date string (`new Date(string)`, Google). -/
inductive JSDate where
  | fromNum (t : ℚ)
  | fromStr (s : String)
deriving DecidableEq, Repr

/-- `ImageryResult` from `core/types.ts`: one street-level imagery asset.
Optional fields are embedded as `Option`. -/
structure ImageryResult where
  id : String
  location : LngLat
  provider : ProviderType
  capturedAt : Option JSDate := none
  thumbnailUrl : Option String := none
  heading : Option ℚ := none
  isPano : Option Bool := none
deriving DecidableEq, Repr

/-- JavaScript `%` on numbers: the truncated-division remainder, which takes
the sign of the dividend. IEEE-754 `fmod` is exact — the remainder of two
binary64 values is itself exactly representable — so this one operation
needs no rounding step. Embedded over `ℚ`: `a - n * trunc (a / n)`, where
`trunc` rounds toward zero (ceiling for negative quotients, floor otherwise). -/
def jsMod (a n : ℚ) : ℚ :=
  a - n * ((if a / n < 0 then ⌈a / n⌉ else ⌊a / n⌋ : ℤ) : ℚ)

/-- Round a rational to an integer, to nearest, ties to even — the IEEE-754
default rounding of a scaled mantissa. -/
def roundNearestEven (m : ℚ) : ℤ :=
  if m - ⌊m⌋ < 1 / 2 then ⌊m⌋
  else if 1 / 2 < m - ⌊m⌋ then ⌊m⌋ + 1
  else if ⌊m⌋ % 2 = 0 then ⌊m⌋ else ⌊m⌋ + 1

/-- IEEE-754 binary64 rounding (to nearest, ties to even) of an exact
rational: scale into the binade `[2^52, 2^53)` using the base-2 logarithm of
the magnitude, round the scaled mantissa to an integer, scale back. The
exponent is unbounded — overflow and subnormal underflow are not modelled —
which agrees with binary64 on every value `normalizeHeading` manipulates
(magnitudes between `2^-1022` and `2^9`). -/
def roundDouble (x : ℚ) : ℚ :=
  if x = 0 then 0
  else if 0 < x then
    (roundNearestEven (x * 2 ^ (52 - Int.log 2 x)) : ℚ) * 2 ^ (Int.log 2 x - 52)
  else
    -((roundNearestEven (-x * 2 ^ (52 - Int.log 2 (-x))) : ℚ) * 2 ^ (Int.log 2 (-x) - 52))

/-- JavaScript `+` on numbers: one binary64 addition, the exact sum rounded. -/
def jsAdd (a b : ℚ) : ℚ := roundDouble (a + b)

/-- `normalizeHeading` from `utils/helpers.ts`:

    let normalized = heading % 360;
    if (normalized < 0) normalized += 360;
    return normalized || 0;

The `%` is exact (see `jsMod`); `normalized += 360` is one binary64 addition
and rounds (`jsAdd`) — for a tiny negative remainder the sum `360 + normalized`
rounds up to exactly `360`. The final `|| 0` only converts `-0` (and `NaN`)
to `0`; over `ℚ` there is no negative zero, so it is the identity on the
branch result (in particular `360` is truthy and passes through). -/
def normalizeHeading (heading : ℚ) : ℚ :=
  let normalized := jsMod heading 360
  if normalized < 0 then jsAdd normalized 360 else normalized

/-- The exact remainder lies in `(-360, 360)`. -/
theorem jsMod_360_bounds (h : ℚ) : -360 < jsMod h 360 ∧ jsMod h 360 < 360 := by
  unfold jsMod
  by_cases hq : h / 360 < 0
  · have h1 : (⌈h / 360⌉ : ℚ) < h / 360 + 1 := by
      exact_mod_cast Int.ceil_lt_add_one (h / 360)
    have h2 : h / 360 ≤ (⌈h / 360⌉ : ℚ) := Int.le_ceil (h / 360)
    have hh : h = 360 * (h / 360) := by ring_nf
    simp only [hq, if_true]
    constructor <;> nlinarith
  · have h1 : (⌊h / 360⌋ : ℚ) ≤ h / 360 := Int.floor_le (h / 360)
    have h2 : h / 360 < (⌊h / 360⌋ : ℚ) + 1 := Int.lt_floor_add_one (h / 360)
    have hh : h = 360 * (h / 360) := by ring_nf
    simp only [hq, if_false]
    constructor <;> nlinarith

/-- The rounded integer is the floor or its successor, within `1/2` of the
input. -/
theorem roundNearestEven_bounds (m : ℚ) :
    ⌊m⌋ ≤ roundNearestEven m ∧ roundNearestEven m ≤ ⌊m⌋ + 1 ∧
    |(roundNearestEven m : ℚ) - m| ≤ 1 / 2 := by
  have hf0 : (⌊m⌋ : ℚ) ≤ m := Int.floor_le m
  have hf1 : m < (⌊m⌋ : ℚ) + 1 := Int.lt_floor_add_one m
  rw [roundNearestEven]
  by_cases h1 : m - ⌊m⌋ < 1 / 2
  · rw [if_pos h1]
    refine ⟨le_refl _, by omega, ?_⟩
    rw [abs_le]
    constructor <;> linarith
  · rw [if_neg h1]
    have h1' : (1:ℚ) / 2 ≤ m - ⌊m⌋ := not_lt.mp h1
    by_cases h2 : 1 / 2 < m - ⌊m⌋
    · rw [if_pos h2]
      refine ⟨by omega, le_refl _, ?_⟩
      rw [abs_le]
      push_cast
      constructor <;> linarith
    · rw [if_neg h2]
      have heq : m - ⌊m⌋ = 1 / 2 := le_antisymm (not_lt.mp h2) h1'
      by_cases h3 : ⌊m⌋ % 2 = 0
      · rw [if_pos h3]
        refine ⟨le_refl _, by omega, ?_⟩
        rw [abs_le]
        constructor <;> linarith
      · rw [if_neg h3]
        refine ⟨by omega, le_refl _, ?_⟩
        rw [abs_le]
        push_cast
        constructor <;> linarith

/-- Rounding a positive exact value below `360` yields a positive double at
most `360`: the doubles in the binade of `360` have spacing `2^-44`, so a
value within half of that below `360` rounds up to `360` and never beyond. -/
theorem roundDouble_pos_bounds (x : ℚ) (hx : 0 < x) (hub : x < 360) :
    0 < roundDouble x ∧ roundDouble x ≤ 360 := by
  have h2c : ((2 : ℕ) : ℚ) = (2 : ℚ) := by norm_num
  have hlogle : (2 : ℚ) ^ Int.log 2 x ≤ x := by
    have h := Int.zpow_log_le_self (b := 2) (by norm_num) hx
    rwa [h2c] at h
  have hloglt : x < (2 : ℚ) ^ (Int.log 2 x + 1) := by
    have h := Int.lt_zpow_succ_log_self (b := 2) (by norm_num) x
    rwa [h2c] at h
  have he8 : Int.log 2 x ≤ 8 := by
    have h512 : x < ((2:ℕ) : ℚ) ^ (9:ℤ) := by
      rw [h2c]
      calc x < 360 := hub
        _ ≤ (2:ℚ) ^ (9:ℤ) := by norm_num
    have h9 := (Int.lt_zpow_iff_log_lt (b := 2) (by norm_num) hx).mp h512
    omega
  set e := Int.log 2 x with he
  set m := x * (2:ℚ) ^ ((52:ℤ) - e) with hm
  have hqpos : (0:ℚ) < (2:ℚ) ^ ((52:ℤ) - e) := zpow_pos (by norm_num) _
  have hipos : (0:ℚ) < (2:ℚ) ^ (e - 52) := zpow_pos (by norm_num) _
  have hm_lb : (2:ℚ) ^ (52:ℤ) ≤ m := by
    have hsplit : (52:ℤ) = e + ((52:ℤ) - e) := by ring
    calc (2:ℚ) ^ (52:ℤ) = (2:ℚ) ^ (e + ((52:ℤ) - e)) := by rw [← hsplit]
      _ = (2:ℚ) ^ e * (2:ℚ) ^ ((52:ℤ) - e) := zpow_add₀ (by norm_num) _ _
      _ ≤ x * (2:ℚ) ^ ((52:ℤ) - e) := mul_le_mul_of_nonneg_right hlogle hqpos.le
  have hval : m * (2:ℚ) ^ (e - 52) = x := by
    rw [hm, mul_assoc, ← zpow_add₀ (by norm_num : (2:ℚ) ≠ 0)]
    have hz : (52:ℤ) - e + (e - 52) = 0 := by ring
    rw [hz, zpow_zero, mul_one]
  obtain ⟨hb0, hb1, hbd⟩ := roundNearestEven_bounds m
  have hfl_lb : (2^52 : ℤ) ≤ ⌊m⌋ := by
    rw [Int.le_floor]
    calc ((2^52 : ℤ) : ℚ) = (2:ℚ) ^ (52:ℤ) := by norm_num
      _ ≤ m := hm_lb
  have hR_pos : (0:ℤ) < roundNearestEven m := by
    have h52 : (0:ℤ) < 2^52 := by positivity
    omega
  have hrd : roundDouble x = (roundNearestEven m : ℚ) * (2:ℚ) ^ (e - 52) := by
    rw [roundDouble, if_neg (ne_of_gt hx), if_pos hx]
  have habove : (roundNearestEven m : ℚ) ≤ m + 1/2 := by
    have h := (abs_le.mp hbd).2
    linarith
  have hub2 : roundDouble x ≤ x + (1/2) * (2:ℚ) ^ (e - 52) := by
    rw [hrd]
    calc (roundNearestEven m : ℚ) * (2:ℚ) ^ (e - 52)
        ≤ (m + 1/2) * (2:ℚ) ^ (e - 52) := mul_le_mul_of_nonneg_right habove hipos.le
      _ = m * (2:ℚ) ^ (e - 52) + (1/2) * (2:ℚ) ^ (e - 52) := by ring
      _ = x + (1/2) * (2:ℚ) ^ (e - 52) := by rw [hval]
  refine ⟨?_, ?_⟩
  · rw [hrd]
    have hc : (0:ℚ) < (roundNearestEven m : ℚ) := by exact_mod_cast hR_pos
    exact mul_pos hc hipos
  · rcases lt_or_le e 8 with he7 | he8'
    · have hxe : x < 256 := by
        calc x < (2:ℚ) ^ (e + 1) := hloglt
          _ ≤ (2:ℚ) ^ (8:ℤ) := zpow_le_zpow_right₀ (by norm_num) (by omega)
          _ = 256 := by norm_num
      have hsmall : (1/2 : ℚ) * (2:ℚ) ^ (e - 52) ≤ 1 := by
        have h1 : (2:ℚ) ^ (e - 52) ≤ 1 := zpow_le_one_of_nonpos₀ (by norm_num) (by omega)
        linarith
      linarith
    · have he8'' : e = 8 := le_antisymm he8 he8'
      rw [he8''] at hrd hub2
      have hc : (2:ℚ) ^ ((8:ℤ) - 52) = 1 / 17592186044416 := by norm_num
      rw [hc] at hrd hub2
      by_contra hgt
      push_neg at hgt
      rw [hrd] at hgt
      have hRgt : (6333186975989760 : ℚ) < (roundNearestEven m : ℚ) := by linarith
      have hRgtz : (6333186975989760 : ℤ) < roundNearestEven m := by exact_mod_cast hRgt
      have hRgez : (6333186975989761 : ℤ) ≤ roundNearestEven m := by omega
      have hRge : (6333186975989761 : ℚ) ≤ (roundNearestEven m : ℚ) := by exact_mod_cast hRgez
      have h5 : (roundNearestEven m : ℚ) * (1 / 17592186044416) ≤
          x + 1 / 2 * (1 / 17592186044416) := by
        rw [← hrd]
        exact hub2
      linarith

/-- C5 fails on the program: at the double `heading = -2^-60`, the remainder
is `-2^-60` itself, and the binary64 addition `normalized += 360` rounds the
exact sum `360 - 2^-60` (within half an ulp of `360`, whose binade has
spacing `2^-44`) up to exactly `360`, so `normalizeHeading` returns `360` —
outside the claimed `[0, 360)`. -/
theorem normalizeHeading_returns_360_on_tiny_negative :
    normalizeHeading (-(1 / 2 ^ 60)) = 360 ∧
    ¬ normalizeHeading (-(1 / 2 ^ 60)) < 360 := by
  have hjs : jsMod (-(1 / 2 ^ 60)) 360 = -(1 / 2 ^ 60) := by
    rw [jsMod]
    have hneg : (-(1 / 2 ^ 60) : ℚ) / 360 < 0 := by norm_num
    have hc : ⌈(-(1 / 2 ^ 60) : ℚ) / 360⌉ = 0 := by
      rw [Int.ceil_eq_iff]
      norm_num
    rw [if_pos hneg, hc]
    norm_num
  have hres : normalizeHeading (-(1 / 2 ^ 60)) = 360 := by
    show (if jsMod (-(1 / 2 ^ 60)) 360 < 0 then jsAdd (jsMod (-(1 / 2 ^ 60)) 360) 360
      else jsMod (-(1 / 2 ^ 60)) 360) = 360
    rw [hjs, if_pos (by norm_num : (-(1 / 2 ^ 60) : ℚ) < 0)]
    show roundDouble ((-(1 / 2 ^ 60) : ℚ) + 360) = 360
    have hsum : ((-(1 / 2 ^ 60) : ℚ)) + 360 = 360 - 1 / 2 ^ 60 := by ring
    rw [hsum]
    have hlog : Int.log 2 ((360:ℚ) - 1 / 2 ^ 60) = 8 := by
      rw [Int.log_of_one_le_right 2 (by norm_num : (1:ℚ) ≤ 360 - 1 / 2 ^ 60)]
      have hf : ⌊((360:ℚ) - 1 / 2 ^ 60)⌋₊ = 359 := by
        rw [Nat.floor_eq_iff (by norm_num : (0:ℚ) ≤ 360 - 1 / 2 ^ 60)]
        norm_num
      rw [hf]
      exact_mod_cast Nat.log_eq_of_pow_le_of_lt_pow (by norm_num) (by norm_num)
    rw [roundDouble, if_neg (by norm_num), if_pos (by norm_num), hlog]
    have hfl : ⌊((360:ℚ) - 1 / 2 ^ 60) * 2 ^ ((52:ℤ) - 8)⌋ = 6333186975989759 := by
      norm_num
    rw [roundNearestEven, hfl]
    have h1 : ¬ (((360:ℚ) - 1 / 2 ^ 60) * 2 ^ ((52:ℤ) - 8) - (6333186975989759 : ℤ) < 1 / 2) := by
      norm_num
    have h2 : (1:ℚ) / 2 <
        ((360:ℚ) - 1 / 2 ^ 60) * 2 ^ ((52:ℤ) - 8) - (6333186975989759 : ℤ) := by
      norm_num
    rw [if_neg h1, if_pos h2]
    norm_num
  exact ⟨hres, by rw [hres]; norm_num⟩

/-- C5 (amended): `normalizeHeading` lands in the closed interval `[0, 360]`
— the right end is reachable, but only through the rounded `+= 360` of a
tiny negative remainder (see `normalizeHeading_returns_360_on_tiny_negative`);
whenever the remainder is nonnegative the result stays in `[0, 360)` — and
the three sample inputs return `360 ↦ 0`, `-90 ↦ 270`, `450 ↦ 90`. -/
theorem normalizeHeading_amended_range_and_samples :
    ∀ h : ℚ, (0 ≤ normalizeHeading h ∧ normalizeHeading h ≤ 360) ∧
      (0 ≤ jsMod h 360 → normalizeHeading h < 360) ∧
      normalizeHeading 360 = 0 ∧ normalizeHeading (-90) = 270 ∧
      normalizeHeading 450 = 90 := by
  have j1 : jsMod 360 360 = 0 := by
    unfold jsMod
    have e : ((360 : ℚ) / 360) = 1 := by norm_num
    rw [e]
    norm_num
  have j2 : jsMod (-90) 360 = -90 := by
    unfold jsMod
    have e : ((-90 : ℚ) / 360) = -(1 / 4) := by norm_num
    rw [e]
    have hc : ⌈(-(1 / 4) : ℚ)⌉ = 0 := by
      rw [Int.ceil_eq_iff]
      norm_num
    rw [hc]
    norm_num
  have j3 : jsMod 450 360 = 90 := by
    unfold jsMod
    have e : ((450 : ℚ) / 360) = 5 / 4 := by norm_num
    rw [e]
    have hf : ⌊(5 / 4 : ℚ)⌋ = 1 := by
      rw [Int.floor_eq_iff]
      norm_num
    rw [hf]
    norm_num
  have h270 : roundDouble 270 = 270 := by
    have hlog : Int.log 2 (270 : ℚ) = 8 := by
      rw [Int.log_of_one_le_right 2 (by norm_num : (1:ℚ) ≤ 270)]
      have hf : ⌊(270:ℚ)⌋₊ = 270 := by norm_num
      rw [hf]
      exact_mod_cast Nat.log_eq_of_pow_le_of_lt_pow (by norm_num) (by norm_num)
    rw [roundDouble, if_neg (by norm_num), if_pos (by norm_num), hlog]
    have hm : (270:ℚ) * 2 ^ ((52:ℤ) - 8) = ((4749890231992320 : ℤ) : ℚ) := by norm_num
    rw [hm]
    have hr : roundNearestEven ((4749890231992320 : ℤ) : ℚ) = 4749890231992320 := by
      rw [roundNearestEven]
      simp [Int.floor_intCast]
    rw [hr]
    norm_num
  have samples : normalizeHeading 360 = 0 ∧ normalizeHeading (-90) = 270 ∧
      normalizeHeading 450 = 90 := by
    refine ⟨?_, ?_, ?_⟩
    · simp [normalizeHeading, j1]
    · show (if jsMod (-90) 360 < 0 then jsAdd (jsMod (-90) 360) 360
        else jsMod (-90) 360) = 270
      rw [j2, if_pos (by norm_num : (-90 : ℚ) < 0)]
      show roundDouble ((-90 : ℚ) + 360) = 270
      rw [show ((-90 : ℚ) + 360) = 270 by ring]
      exact h270
    · simp only [normalizeHeading, j3]
      norm_num
  intro h
  obtain ⟨hmod1, hmod2⟩ := jsMod_360_bounds h
  have hshape : normalizeHeading h =
      (if jsMod h 360 < 0 then jsAdd (jsMod h 360) 360 else jsMod h 360) := rfl
  refine ⟨?_, ?_, samples⟩
  · rw [hshape]
    by_cases hneg : jsMod h 360 < 0
    · rw [if_pos hneg]
      have hsum1 : (0:ℚ) < jsMod h 360 + 360 := by linarith
      have hsum2 : jsMod h 360 + 360 < 360 := by linarith
      obtain ⟨hlo, hhi⟩ := roundDouble_pos_bounds (jsMod h 360 + 360) hsum1 hsum2
      exact ⟨le_of_lt hlo, hhi⟩
    · rw [if_neg hneg]
      exact ⟨not_lt.mp hneg, le_of_lt hmod2⟩
  · intro hge
    rw [hshape, if_neg (not_lt.mpr hge)]
    exact hmod2

/-! ## URL building (`src/lib/utils/api.ts`) -/

/-- The values `buildUrl`'s parameter map can hold. The source signature is
`Record<string, string | number | boolean>`, and the guard additionally
distinguishes `undefined` and `null`. `num` carries the decimal rendering
that `String(number)` produces; nothing below depends on that rendering. -/
inductive JSValue where
  | undef
  | null
  | str (s : String)
  | num (decimal : String)
  | bool (b : Bool)
deriving DecidableEq, Repr

/-- JavaScript `String(value)` on a `JSValue`. -/
def jsString : JSValue → String
  | .undef => "undefined"
  | .null => "null"
  | .str s => s
  | .num decimal => decimal
  | .bool true => "true"
  | .bool false => "false"

/-- The guard in `buildUrl`:
`value !== undefined && value !== null && value !== ''`. Only an actual
empty string fails the third test (strict `!==` is false across types). -/
def keepParam : JSValue → Bool
  | .undef => false
  | .null => false
  | .str s => !(s == "")
  | .num _ => true
  | .bool _ => true

/-- Uppercase hexadecimal digit of `n < 16`. -/
def hexDigit (n : ℕ) : Char :=
  if n < 10 then Char.ofNat (48 + n) else Char.ofNat (55 + n)

/-- `%XX` escape of one byte, uppercase hex, as `URLSearchParams` writes it. -/
def percentByte (b : ℕ) : List Char :=
  ['%', hexDigit (b / 16 % 16), hexDigit (b % 16)]

/-- The UTF-8 bytes of one character. -/
def utf8Bytes (c : Char) : List ℕ :=
  let n := c.toNat
  if n < 128 then [n]
  else if n < 2048 then [192 + n / 64, 128 + n % 64]
  else if n < 65536 then [224 + n / 4096, 128 + n / 64 % 64, 128 + n % 64]
  else [240 + n / 262144, 128 + n / 4096 % 64, 128 + n / 64 % 64, 128 + n % 64]

/-- Characters the `application/x-www-form-urlencoded` serializer leaves
unchanged: ASCII alphanumerics and `*`, `-`, `.`, `_`. -/
def isUrlencodedSafe (c : Char) : Bool :=
  c.isAlphanum || c == '*' || c == '-' || c == '.' || c == '_'

/-- One character under the form-urlencoded serialization `url.toString()`
applies to each `searchParams` name and value: space becomes `+`, safe
characters stay themselves, every other character is percent-encoded
byte by byte (UTF-8, uppercase hex). -/
def encodeChar (c : Char) : List Char :=
  if c = ' ' then ['+']
  else if isUrlencodedSafe c then [c]
  else ((utf8Bytes c).map percentByte).flatten

/-- Form-urlencoding of a whole string, character by character. -/
def formUrlEncode (s : String) : String :=
  String.mk (s.data.map encodeChar).flatten

/-- The (name, value) pairs of the query string `buildUrl` produces: the
parameters that pass the guard, in order, each component serialized by
`URLSearchParams`. `searchParams.set` degenerates to append because a JS
object's keys are distinct. -/
def buildUrlQueryPairs (params : List (String × JSValue)) : List (String × String) :=
  (params.filter fun p => keepParam p.2).map fun p =>
    (formUrlEncode p.1, formUrlEncode (jsString p.2))

/-- `buildUrl` from `utils/api.ts`: `new URL(baseUrl)`, `searchParams.set`
for each passing parameter, then `toString()`. The WHATWG parsing and
normalization of `baseUrl` itself is not modelled: every call site in the
repository passes a literal base URL with no query or fragment, which
`toString` reproduces unchanged before the `?`. -/
def buildUrl (baseUrl : String) (params : List (String × JSValue)) : String :=
  match buildUrlQueryPairs params with
  | [] => baseUrl
  | pairs => baseUrl ++ "?" ++ String.intercalate "&" (pairs.map fun p => p.1 ++ "=" ++ p.2)

/-- All-safe strings come out of the serializer verbatim. -/
theorem formUrlEncode_of_safe :
    ∀ s : String, (∀ c ∈ s.data, isUrlencodedSafe c = true) → formUrlEncode s = s := by
  have chars : ∀ l : List Char, (∀ c ∈ l, isUrlencodedSafe c = true) →
      (l.map encodeChar).flatten = l := by
    intro l h
    induction l with
    | nil => rfl
    | cons c cs ih =>
      have hc : isUrlencodedSafe c = true := h c (List.mem_cons_self c cs)
      have hcs : ∀ x ∈ cs, isUrlencodedSafe x = true := fun x hx => h x (List.mem_cons_of_mem c hx)
      have hne : c ≠ ' ' := by
        intro hsp
        rw [hsp] at hc
        exact absurd hc (by decide)
      simp [encodeChar, hne, hc, ih hcs]
  intro s h
  show String.mk (s.data.map encodeChar).flatten = s
  rw [chars s.data h]

/-- C6 (amended): `buildUrl` omits exactly the parameters whose value is
`undefined`, `null` or the empty string; every other parameter is included
at its position with name and value serialized by the form-urlencoded
serializer (so a value appears verbatim exactly when all its characters are
ones the serializer keeps — see `formUrlEncode_of_safe`). -/
theorem buildUrl_param_handling :
    ∀ (base k : String) (v : JSValue) (params : List (String × JSValue)),
      (keepParam v = false ↔ v = JSValue.undef ∨ v = JSValue.null ∨ v = JSValue.str "") ∧
      buildUrlQueryPairs ((k, v) :: params) =
        (if keepParam v then [(formUrlEncode k, formUrlEncode (jsString v))] else []) ++
          buildUrlQueryPairs params ∧
      buildUrl base params =
        (match buildUrlQueryPairs params with
          | [] => base
          | pairs => base ++ "?" ++ String.intercalate "&" (pairs.map fun p => p.1 ++ "=" ++ p.2)) := by
  intro base k v params
  refine ⟨?_, ?_, rfl⟩
  · cases v with
    | str s =>
      simp only [keepParam]
      constructor
      · intro hs
        right; right
        simp at hs
        rw [hs]
      · intro hv
        rcases hv with h | h | h <;> simp_all [keepParam]
    | _ => simp [keepParam]
  · by_cases hv : keepParam v = true <;> simp [buildUrlQueryPairs, hv]

/-- C6, the claim as stated is false: a comma in a parameter value is
percent-encoded (`%2C`), not included character for character — exactly the
form the repository's own test expects for `location=37.7749%2C-122.4194`. -/
theorem buildUrl_value_not_verbatim :
    buildUrl "https://maps.googleapis.com/maps/api/streetview/metadata"
        [("location", JSValue.str "37.7749,-122.4194")] =
      "https://maps.googleapis.com/maps/api/streetview/metadata?location=37.7749%2C-122.4194" ∧
    ("37.7749%2C-122.4194" : String) ≠ "37.7749,-122.4194" := by
  exact ⟨rfl, by decide⟩

/-! ## Closest-point scan (`src/lib/utils/geo.ts`) -/

/-- The loop body of `findClosestPoint`: keep the incumbent unless the new
point is strictly closer. -/
def closerStep (dist : LngLat → LngLat → ℚ) (target : LngLat)
    (acc : ImageryResult × ℚ) (p : ImageryResult) : ImageryResult × ℚ :=
  let d := dist target p.location
  if d < acc.2 then (p, d) else acc

/-- `findClosestPoint` from `utils/geo.ts`: linear scan for the point at
minimal `calculateDistance` from the target; `null` on the empty array.
In the source the distance is the haversine `calculateDistance`, computed
with floating-point trigonometry; the scan never looks inside the distance,
so the embedding takes the distance function as the parameter `dist` and the
properties below hold for every distance function, the haversine included. -/
def findClosestPoint (dist : LngLat → LngLat → ℚ) (target : LngLat)
    (points : List ImageryResult) : Option ImageryResult :=
  match points with
  | [] => none
  | p0 :: rest =>
    some (rest.foldl (closerStep dist target) (p0, dist target p0.location)).1

/-- Fold invariant of the scan: the final incumbent is the initial one or an
element of the scanned list, its recorded distance is its own distance, and
that distance is a lower bound of the initial distance and of every scanned
element's distance. -/
theorem closerStep_foldl_min (dist : LngLat → LngLat → ℚ) (target : LngLat) :
    ∀ (rest : List ImageryResult) (p : ImageryResult),
      (((rest.foldl (closerStep dist target) (p, dist target p.location)).1 = p ∨
        (rest.foldl (closerStep dist target) (p, dist target p.location)).1 ∈ rest) ∧
       (rest.foldl (closerStep dist target) (p, dist target p.location)).2 =
         dist target (rest.foldl (closerStep dist target) (p, dist target p.location)).1.location ∧
       (rest.foldl (closerStep dist target) (p, dist target p.location)).2 ≤
         dist target p.location ∧
       ∀ q ∈ rest, (rest.foldl (closerStep dist target) (p, dist target p.location)).2 ≤
         dist target q.location) := by
  intro rest
  induction rest with
  | nil => exact fun p => ⟨Or.inl rfl, rfl, le_refl _, by intro q hq; cases hq⟩
  | cons r rs ih =>
    intro p
    rw [List.foldl_cons]
    by_cases hlt : dist target r.location < dist target p.location
    · have hstep : closerStep dist target (p, dist target p.location) r =
          (r, dist target r.location) := by
        simp [closerStep, hlt]
      rw [hstep]
      obtain ⟨hmem, hdist, hle, hall⟩ := ih r
      refine ⟨?_, hdist, ?_, ?_⟩
      · rcases hmem with h | h
        · exact Or.inr (by rw [h]; exact List.mem_cons_self r rs)
        · exact Or.inr (List.mem_cons_of_mem r h)
      · exact le_trans hle (le_of_lt hlt)
      · intro q hq
        rcases List.mem_cons.mp hq with h | h
        · rw [h]
          exact hle
        · exact hall q h
    · have hstep : closerStep dist target (p, dist target p.location) r =
          (p, dist target p.location) := by
        simp [closerStep, hlt]
      rw [hstep]
      obtain ⟨hmem, hdist, hle, hall⟩ := ih p
      refine ⟨?_, hdist, hle, ?_⟩
      · rcases hmem with h | h
        · exact Or.inl h
        · exact Or.inr (List.mem_cons_of_mem r h)
      · intro q hq
        rcases List.mem_cons.mp hq with h | h
        · rw [h]
          exact le_trans hle (not_lt.mp hlt)
        · exact hall q h

/-- C8: `findClosestPoint` returns `null` exactly on the empty list, and
otherwise an element of the list whose distance to the target is a minimum
over the whole list — for every distance function, in particular the
haversine `calculateDistance` the source passes. -/
theorem findClosestPoint_min :
    ∀ (dist : LngLat → LngLat → ℚ) (target : LngLat) (points : List ImageryResult),
      (findClosestPoint dist target points = none ↔ points = []) ∧
      ∀ r, findClosestPoint dist target points = some r →
        r ∈ points ∧ ∀ p ∈ points, dist target r.location ≤ dist target p.location := by
  intro dist target points
  cases points with
  | nil => exact ⟨by simp [findClosestPoint], by intro r hr; cases hr⟩
  | cons p0 rest =>
    refine ⟨by simp [findClosestPoint], ?_⟩
    intro r hr
    obtain ⟨hmem, hdist, hle, hall⟩ := closerStep_foldl_min dist target rest p0
    have hr0 : (rest.foldl (closerStep dist target) (p0, dist target p0.location)).1 = r := by
      simpa [findClosestPoint] using hr
    rw [hr0] at hmem hdist
    constructor
    · rcases hmem with h | h
      · rw [h]
        exact List.mem_cons_self p0 rest
      · exact List.mem_cons_of_mem p0 h
    · intro p hp
      rw [← hdist]
      rcases List.mem_cons.mp hp with h | h
      · rw [h]
        exact hle
      · exact hall p h

/-! ## Providers (`src/lib/providers/*.ts`): point queries -/

/-- How one `fetch` settles when the promise resolves: the response status
and the result of `response.json()` (which can itself reject, a parse
failure). -/
structure FetchResponse (α : Type) where
  ok : Bool
  status : ℕ
  json : Except String α

/-- How one `fetch` call settles: rejected (network failure) or resolved
with a response. -/
inductive FetchOutcome (α : Type) where
  | rejected (msg : String)
  | resolved (response : FetchResponse α)

/-- `fetchJson` from `utils/api.ts`: await the fetch, throw on a non-OK
status, otherwise return the parsed JSON body. -/
def fetchJson {α : Type} (outcome : FetchOutcome α) : Except String α :=
  match outcome with
  | .rejected msg => .error msg
  | .resolved r =>
    if r.ok then r.json
    else .error ("HTTP error! status: " ++ toString r.status)

/-- One element of the Mapillary bbox image-search response
(`MapillaryImage` in `utils/api.ts`); `computed_geometry` carries the
GeoJSON Point coordinates `[lng, lat]`. -/
structure MapillaryImage where
  id : String
  computed_geometry : Option (ℚ × ℚ) := none
  thumb_1024_url : Option String := none
  thumb_256_url : Option String := none
  captured_at : Option ℚ := none
  compass_angle : Option ℚ := none
  is_pano : Option Bool := none
deriving DecidableEq, Repr

/-- `MapillaryImageResponse`: the `data` array (absent when the body does
not have the expected shape, as `!response.data` tests). -/
structure MapillaryImageResponse where
  data : Option (List MapillaryImage) := none
deriving DecidableEq, Repr

/-- `MapillaryProvider.mapillaryToImagery`, extended to `none` when the
geometry is absent (the source only calls it on images that passed the
`computed_geometry` filter). JS truthiness is embedded faithfully:
`thumb_256_url || thumb_1024_url` falls through an empty string, and
`captured_at ? new Date(captured_at) : undefined` drops a 0 timestamp. -/
def mapillaryToImagery (img : MapillaryImage) : Option ImageryResult :=
  match img.computed_geometry with
  | none => none
  | some (lng, lat) =>
    some {
      id := img.id
      location := { lng := lng, lat := lat }
      provider := .mapillary
      thumbnailUrl :=
        (match img.thumb_256_url with
          | some s => if s == "" then img.thumb_1024_url else some s
          | none => img.thumb_1024_url)
      capturedAt :=
        (match img.captured_at with
          | some t => if t = 0 then none else some (JSDate.fromNum t)
          | none => none)
      heading := img.compass_angle
      isPano := img.is_pano }

/-- `MapillaryProvider.queryImagery` at a location: `null` when the token is
not configured; fetch the bbox search (the network is the explicit
`outcome`; the radius only enters the request URL); the `try`/`catch` turns
a rejected fetch, a non-OK status and a parse failure alike into `null`;
otherwise filter to images with geometry, convert, and take the closest
(the source's `.filter(...).map(...)` is `filter` + `filterMap` here, the
conversion being `some` exactly on filtered elements). `dist` abstracts the
floating-point haversine `calculateDistance` as in `findClosestPoint`. -/
def mapillaryQueryImagery (dist : LngLat → LngLat → ℚ) (accessToken : String)
    (point : LngLat) (outcome : FetchOutcome MapillaryImageResponse) :
    Option ImageryResult :=
  if accessToken == "" then none
  else
    match fetchJson outcome with
    | .error _ => none
    | .ok response =>
      match response.data with
      | none => none
      | some data =>
        if data.isEmpty then none
        else
          findClosestPoint dist point
            ((data.filter fun img => img.computed_geometry.isSome).filterMap mapillaryToImagery)

/-- `status` of the Google Street View metadata response. -/
inductive GoogleStatus where
  | OK
  | ZERO_RESULTS
  | NOT_FOUND
  | OVER_QUERY_LIMIT
  | REQUEST_DENIED
  | INVALID_REQUEST
  | UNKNOWN_ERROR
deriving DecidableEq, Repr

/-- `GoogleStreetViewMetadata` from `utils/api.ts`. -/
structure GoogleStreetViewMetadata where
  status : GoogleStatus
  copyright : Option String := none
  date : Option String := none
  location : Option LngLat := none
  pano_id : Option String := none
deriving DecidableEq, Repr

/-- `GoogleStreetViewProvider.queryImagery`: `null` when the key is not
configured; fetch the metadata endpoint; the `try`/`catch` turns a rejected
fetch, a non-OK status and a parse failure alike into `null`; the guard
`metadata.status === 'OK' && metadata.location && metadata.pano_id` uses JS
truthiness, so a present but empty `pano_id` is rejected too. -/
def googleQueryImagery (apiKey : String) (_point : LngLat)
    (outcome : FetchOutcome GoogleStreetViewMetadata) : Option ImageryResult :=
  if apiKey == "" then none
  else
    match fetchJson outcome with
    | .error _ => none
    | .ok metadata =>
      if metadata.status = GoogleStatus.OK then
        match metadata.location, metadata.pano_id with
        | some loc, some panoId =>
          if panoId == "" then none
          else
            some {
              id := panoId
              location := loc
              provider := .google
              capturedAt :=
                (match metadata.date with
                  | some d => if d == "" then none else some (JSDate.fromStr d)
                  | none => none)
              isPano := some true }
        | _, _ => none
      else none

/-- C2: neither provider's point query propagates a failure. A rejected
fetch, a non-OK HTTP status and a body that fails to parse all resolve to
`null` — the very value a completed query with no coverage returns (for
Mapillary an OK response with an empty `data` array, for Google an OK
response with status `ZERO_RESULTS`), so the caller cannot tell the cases
apart from the returned value. -/
theorem queryImagery_failure_is_null :
    ∀ (dist : LngLat → LngLat → ℚ) (accessToken apiKey : String) (point : LngLat)
      (msg : String) (mres : FetchResponse MapillaryImageResponse)
      (gres : FetchResponse GoogleStreetViewMetadata),
      mapillaryQueryImagery dist accessToken point (.rejected msg) = none ∧
      (mres.ok = false → mapillaryQueryImagery dist accessToken point (.resolved mres) = none) ∧
      (mres.json = .error msg → mapillaryQueryImagery dist accessToken point (.resolved mres) = none) ∧
      googleQueryImagery apiKey point (.rejected msg) = none ∧
      (gres.ok = false → googleQueryImagery apiKey point (.resolved gres) = none) ∧
      (gres.json = .error msg → googleQueryImagery apiKey point (.resolved gres) = none) ∧
      mapillaryQueryImagery dist accessToken point
        (.resolved ⟨true, 200, .ok { data := some [] }⟩) = none ∧
      googleQueryImagery apiKey point
        (.resolved ⟨true, 200, .ok { status := .ZERO_RESULTS }⟩) = none := by
  intro dist accessToken apiKey point msg mres gres
  obtain ⟨mok, mstatus, mjson⟩ := mres
  obtain ⟨gok, gstatus, gjson⟩ := gres
  refine ⟨?_, ?_, ?_, ?_, ?_, ?_, ?_, ?_⟩
  · simp [mapillaryQueryImagery, fetchJson]
  · intro h
    subst h
    simp [mapillaryQueryImagery, fetchJson]
  · intro h
    cases mok
    · simp [mapillaryQueryImagery, fetchJson]
    · have hj : mjson = Except.error msg := h
      subst hj
      simp [mapillaryQueryImagery, fetchJson]
  · simp [googleQueryImagery, fetchJson]
  · intro h
    subst h
    simp [googleQueryImagery, fetchJson]
  · intro h
    cases gok
    · simp [googleQueryImagery, fetchJson]
    · have hj : gjson = Except.error msg := h
      subst hj
      simp [googleQueryImagery, fetchJson]
  · simp [mapillaryQueryImagery, fetchJson]
  · simp [googleQueryImagery, fetchJson]

/-! ## Providers: progressive nearest-search (`findNearestImagery`) -/

/-- The `for` loop both providers' `findNearestImagery` share verbatim:
walk the filtered radii in order, `break` on the first radius over the
caller's cap, return the first non-null query result. `q` abstracts
`this.queryImagery` at the fixed target location — the result of the point
query at a given radius. The first component instruments the loop with the
radii it actually queried, in order. -/
def findNearestLoop (q : ℚ → Option ImageryResult) (maxRadius : ℚ) :
    List ℚ → List ℚ × Option ImageryResult
  | [] => ([], none)
  | r :: rest =>
    if maxRadius < r then ([], none)
    else
      match q r with
      | some result => ([r], some result)
      | none =>
        let out := findNearestLoop q maxRadius rest
        (r :: out.1, out.2)

/-- `MapillaryProvider.findNearestImagery`:
`const radii = [50, 100, 250, 500].filter(r => r <= maxRadius || r === 50)`
followed by the loop. -/
def mapillaryFindNearestImagery (q : ℚ → Option ImageryResult) (maxRadius : ℚ) :
    List ℚ × Option ImageryResult :=
  findNearestLoop q maxRadius
    (([50, 100, 250, 500] : List ℚ).filter fun r => decide (r ≤ maxRadius) || decide (r = 50))

/-- `GoogleStreetViewProvider.findNearestImagery`: the same filter and loop
over `[50, 100, 200, 500]`. -/
def googleFindNearestImagery (q : ℚ → Option ImageryResult) (maxRadius : ℚ) :
    List ℚ × Option ImageryResult :=
  findNearestLoop q maxRadius
    (([50, 100, 200, 500] : List ℚ).filter fun r => decide (r ≤ maxRadius) || decide (r = 50))

/-- What C1 asserts of one provider's search, whose fixed ascending radii
sequence is `fixedRadii` and whose run produced `out` (queried radii,
result): the queried radii are a prefix of the fixed sequence cut at the
cap (so they are ascending, from the fixed sequence, and never over the
cap); a non-null result is the first non-null query, nothing queried after
it; a null result means every allowed radius was queried and missed; a cap
below the smallest radius means nothing was queried at all. -/
def progressiveSearchSpec (fixedRadii : List ℚ) (q : ℚ → Option ImageryResult)
    (maxRadius : ℚ) (out : List ℚ × Option ImageryResult) : Prop :=
  out.1 <+: fixedRadii.takeWhile (fun r => decide (r ≤ maxRadius)) ∧
  (∀ v, out.2 = some v → ∃ misses r, out.1 = misses ++ [r] ∧
    (∀ x ∈ misses, q x = none) ∧ q r = some v) ∧
  (out.2 = none → out.1 = fixedRadii.takeWhile (fun r => decide (r ≤ maxRadius)) ∧
    ∀ x ∈ out.1, q x = none) ∧
  (maxRadius < 50 → out = ([], none))

/-- The loop's queried radii are a prefix of the input cut at the cap. -/
theorem findNearestLoop_queried (q : ℚ → Option ImageryResult) (maxRadius : ℚ) :
    ∀ l : List ℚ, (findNearestLoop q maxRadius l).1 <+:
      l.takeWhile (fun r => decide (r ≤ maxRadius)) := by
  intro l
  induction l with
  | nil => exact List.nil_prefix
  | cons r rest ih =>
    show (if maxRadius < r then _ else _ : List ℚ × Option ImageryResult).1 <+: _
    by_cases hr : maxRadius < r
    · simp [hr]
    · have hle : decide (r ≤ maxRadius) = true := by simp [not_lt.mp hr]
      rw [List.takeWhile_cons, hle]
      simp only [hr, if_false]
      cases hq : q r with
      | some v => simp
      | none => simpa using ih

/-- A null loop result means every radius at or under the cap was queried
and every queried radius missed. -/
theorem findNearestLoop_none (q : ℚ → Option ImageryResult) (maxRadius : ℚ) :
    ∀ l : List ℚ, (findNearestLoop q maxRadius l).2 = none →
      (findNearestLoop q maxRadius l).1 = l.takeWhile (fun r => decide (r ≤ maxRadius)) ∧
      ∀ x ∈ (findNearestLoop q maxRadius l).1, q x = none := by
  intro l
  induction l with
  | nil => exact fun _ => ⟨rfl, by intro x hx; cases hx⟩
  | cons r rest ih =>
    intro hnone
    by_cases hr : maxRadius < r
    · have hshape : findNearestLoop q maxRadius (r :: rest) = ([], none) := by
        simp [findNearestLoop, hr]
      have hfalse : decide (r ≤ maxRadius) = false := by simp [hr]
      rw [hshape, List.takeWhile_cons, hfalse]
      exact ⟨rfl, by intro x hx; cases hx⟩
    · have hle : decide (r ≤ maxRadius) = true := by simp [not_lt.mp hr]
      cases hq : q r with
      | some v =>
        exfalso
        have : (findNearestLoop q maxRadius (r :: rest)).2 = some v := by
          simp [findNearestLoop, hr, hq]
        rw [this] at hnone
        cases hnone
      | none =>
        have hshape : findNearestLoop q maxRadius (r :: rest) =
            (r :: (findNearestLoop q maxRadius rest).1, (findNearestLoop q maxRadius rest).2) := by
          simp [findNearestLoop, hr, hq]
        rw [hshape] at hnone ⊢
        obtain ⟨h1, h2⟩ := ih hnone
        constructor
        · rw [List.takeWhile_cons, hle]
          simpa using h1
        · intro x hx
          rcases List.mem_cons.mp hx with h | h
          · rw [h]
            exact hq
          · exact h2 x h

/-- A non-null loop result is the first hit: every earlier queried radius
missed, the last queried radius produced it, nothing was queried after. -/
theorem findNearestLoop_some (q : ℚ → Option ImageryResult) (maxRadius : ℚ) :
    ∀ (l : List ℚ) (v : ImageryResult), (findNearestLoop q maxRadius l).2 = some v →
      ∃ misses r, (findNearestLoop q maxRadius l).1 = misses ++ [r] ∧
        (∀ x ∈ misses, q x = none) ∧ q r = some v := by
  intro l
  induction l with
  | nil =>
    intro v hv
    cases hv
  | cons r rest ih =>
    intro v hv
    by_cases hr : maxRadius < r
    · exfalso
      have : (findNearestLoop q maxRadius (r :: rest)).2 = none := by
        simp [findNearestLoop, hr]
      rw [this] at hv
      cases hv
    · cases hq : q r with
      | some w =>
        have hshape : findNearestLoop q maxRadius (r :: rest) = ([r], some w) := by
          simp [findNearestLoop, hr, hq]
        rw [hshape] at hv ⊢
        cases hv
        refine ⟨[], r, rfl, ?_, hq⟩
        intro x hx
        cases hx
      | none =>
        have hshape : findNearestLoop q maxRadius (r :: rest) =
            (r :: (findNearestLoop q maxRadius rest).1, (findNearestLoop q maxRadius rest).2) := by
          simp [findNearestLoop, hr, hq]
        rw [hshape] at hv ⊢
        obtain ⟨misses, rr, h1, h2, h3⟩ := ih v hv
        refine ⟨r :: misses, rr, by rw [h1]; rfl, ?_, h3⟩
        intro x hx
        rcases List.mem_cons.mp hx with h | h
        · rw [h]
          exact hq
        · exact h2 x h

/-- When every radius of the list is over the cap the loop queries nothing. -/
theorem findNearestLoop_over_cap (q : ℚ → Option ImageryResult) (maxRadius : ℚ) :
    ∀ l : List ℚ, (∀ x ∈ l, maxRadius < x) → findNearestLoop q maxRadius l = ([], none) := by
  intro l h
  cases l with
  | nil => rfl
  | cons r rest =>
    have hr : maxRadius < r := h r (List.mem_cons_self r rest)
    simp [findNearestLoop, hr]

/-- Cutting the filtered radii at the cap gives the same list as cutting
the fixed sequence at the cap (Mapillary's radii): the filter only ever
re-admits 50, and the loop's `break` discards it again when `50 > maxRadius`. -/
theorem filter_takeWhile_radii_mapillary (m : ℚ) :
    ((([50, 100, 250, 500] : List ℚ).filter fun r => decide (r ≤ m) || decide (r = 50)).takeWhile
      (fun r => decide (r ≤ m))) =
    ([50, 100, 250, 500] : List ℚ).takeWhile fun r => decide (r ≤ m) := by
  have e100 : ¬ (100 : ℚ) = 50 := by norm_num
  have e250 : ¬ (250 : ℚ) = 50 := by norm_num
  have e500 : ¬ (500 : ℚ) = 50 := by norm_num
  by_cases h50 : (50 : ℚ) ≤ m
  · by_cases h100 : (100 : ℚ) ≤ m
    · by_cases h250 : (250 : ℚ) ≤ m
      · by_cases h500 : (500 : ℚ) ≤ m
        · simp [List.filter, List.takeWhile, h50, h100, h250, h500, e100, e250, e500]
        · simp [List.filter, List.takeWhile, h50, h100, h250, h500, e100, e250, e500]
      · have h500 : ¬ (500 : ℚ) ≤ m := fun h => h250 (by linarith)
        simp [List.filter, List.takeWhile, h50, h100, h250, h500, e100, e250, e500]
    · have h250 : ¬ (250 : ℚ) ≤ m := fun h => h100 (by linarith)
      have h500 : ¬ (500 : ℚ) ≤ m := fun h => h100 (by linarith)
      simp [List.filter, List.takeWhile, h50, h100, h250, h500, e100, e250, e500]
  · have h100 : ¬ (100 : ℚ) ≤ m := fun h => h50 (by linarith)
    have h250 : ¬ (250 : ℚ) ≤ m := fun h => h50 (by linarith)
    have h500 : ¬ (500 : ℚ) ≤ m := fun h => h50 (by linarith)
    simp [List.filter, List.takeWhile, h50, h100, h250, h500, e100, e250, e500]

/-- Same as `filter_takeWhile_radii_mapillary` for Google's radii. -/
theorem filter_takeWhile_radii_google (m : ℚ) :
    ((([50, 100, 200, 500] : List ℚ).filter fun r => decide (r ≤ m) || decide (r = 50)).takeWhile
      (fun r => decide (r ≤ m))) =
    ([50, 100, 200, 500] : List ℚ).takeWhile fun r => decide (r ≤ m) := by
  have e100 : ¬ (100 : ℚ) = 50 := by norm_num
  have e200 : ¬ (200 : ℚ) = 50 := by norm_num
  have e500 : ¬ (500 : ℚ) = 50 := by norm_num
  by_cases h50 : (50 : ℚ) ≤ m
  · by_cases h100 : (100 : ℚ) ≤ m
    · by_cases h200 : (200 : ℚ) ≤ m
      · by_cases h500 : (500 : ℚ) ≤ m
        · simp [List.filter, List.takeWhile, h50, h100, h200, h500, e100, e200, e500]
        · simp [List.filter, List.takeWhile, h50, h100, h200, h500, e100, e200, e500]
      · have h500 : ¬ (500 : ℚ) ≤ m := fun h => h200 (by linarith)
        simp [List.filter, List.takeWhile, h50, h100, h200, h500, e100, e200, e500]
    · have h200 : ¬ (200 : ℚ) ≤ m := fun h => h100 (by linarith)
      have h500 : ¬ (500 : ℚ) ≤ m := fun h => h100 (by linarith)
      simp [List.filter, List.takeWhile, h50, h100, h200, h500, e100, e200, e500]
  · have h100 : ¬ (100 : ℚ) ≤ m := fun h => h50 (by linarith)
    have h200 : ¬ (200 : ℚ) ≤ m := fun h => h50 (by linarith)
    have h500 : ¬ (500 : ℚ) ≤ m := fun h => h50 (by linarith)
    simp [List.filter, List.takeWhile, h50, h100, h200, h500, e100, e200, e500]

/-- Assembly: the filter-then-loop shape of `findNearestImagery` satisfies
`progressiveSearchSpec` whenever cutting the filtered list at the cap equals
cutting the fixed list at the cap and every fixed radius is at least 50. -/
theorem progressive_of_filter (q : ℚ → Option ImageryResult) (maxRadius : ℚ)
    (fixedRadii : List ℚ)
    (hbridge : ((fixedRadii.filter fun r => decide (r ≤ maxRadius) || decide (r = 50)).takeWhile
        (fun r => decide (r ≤ maxRadius))) =
      fixedRadii.takeWhile (fun r => decide (r ≤ maxRadius)))
    (h50 : ∀ x ∈ fixedRadii, (50 : ℚ) ≤ x) :
    progressiveSearchSpec fixedRadii q maxRadius
      (findNearestLoop q maxRadius
        (fixedRadii.filter fun r => decide (r ≤ maxRadius) || decide (r = 50))) := by
  refine ⟨?_, ?_, ?_, ?_⟩
  · rw [← hbridge]
    exact findNearestLoop_queried q maxRadius _
  · intro v hv
    exact findNearestLoop_some q maxRadius _ v hv
  · intro hnone
    obtain ⟨h1, h2⟩ := findNearestLoop_none q maxRadius _ hnone
    exact ⟨h1.trans hbridge, h2⟩
  · intro hcap
    apply findNearestLoop_over_cap
    intro x hx
    have hmem : x ∈ fixedRadii := List.mem_of_mem_filter hx
    exact lt_of_lt_of_le hcap (h50 x hmem)

/-- C1: both providers' `findNearestImagery` runs are progressive searches:
queried radii form a prefix of the fixed ascending sequence cut at the
caller's cap (never exceeding it), the result is the first non-null point
query with nothing queried after it, a null result means every allowed
radius missed, and a cap under 50 queries nothing and returns null. -/
theorem findNearestImagery_progressive_first_hit :
    ∀ (q : ℚ → Option ImageryResult) (maxRadius : ℚ),
      progressiveSearchSpec [50, 100, 250, 500] q maxRadius
        (mapillaryFindNearestImagery q maxRadius) ∧
      progressiveSearchSpec [50, 100, 200, 500] q maxRadius
        (googleFindNearestImagery q maxRadius) := by
  intro q m
  constructor
  · exact progressive_of_filter q m [50, 100, 250, 500]
      (filter_takeWhile_radii_mapillary m)
      (by intro x hx; fin_cases hx <;> norm_num)
  · exact progressive_of_filter q m [50, 100, 200, 500]
      (filter_takeWhile_radii_google m)
      (by intro x hx; fin_cases hx <;> norm_num)

/-! ## The orchestrator (`src/lib/core/StreetViewControl.ts`)

Each method of `StreetViewControl` that touches `this._state` is embedded as
a function from the state (plus whatever the environment supplies: the
lookup's settlement, whether a provider instance exists) to the successor
state and the list of events the method emits, in order. DOM work (panel,
marker, viewer, no-data message) has no bearing on the state record or the
emissions and is not modelled. -/

/-- `StreetViewState` from `core/types.ts`: the single mutable record the
orchestrator owns. -/
structure StreetViewState where
  collapsed : Bool
  activeProvider : ProviderType
  location : Option LngLat
  imagery : Option ImageryResult
  heading : ℚ
  pitch : ℚ
  loading : Bool
  error : Option String
deriving DecidableEq, Repr

/-- `StreetViewEvent` from `core/types.ts`. -/
inductive StreetViewEvent where
  | collapse
  | expand
  | statechange
  | providerchange
  | locationchange
  | headingchange
  | error
  | load
deriving DecidableEq, Repr

/-- How the awaited imagery lookup inside `showStreetView` settles:
imagery found (by the point query or the nearby search), found nothing,
or threw. -/
inductive LookupOutcome where
  | found (imagery : ImageryResult)
  | miss
  | threw (msg : String)
deriving DecidableEq, Repr

/-- The state while `showStreetView`'s lookup is in flight: lines 285–287
have recorded the clicked location, raised `loading` and cleared `error`,
and `locationchange` has been emitted. -/
def showStreetViewInFlight (s : StreetViewState) (location : LngLat) : StreetViewState :=
  { s with location := some location, loading := true, error := none }

/-- `StreetViewControl.showStreetView`: with no provider configured it only
shows the no-data message and returns (no state change, no emission).
Otherwise it enters the in-flight state, emits `locationchange`, awaits the
lookup, and settles: imagery found lowers `loading`, stores the imagery and
emits `load`; a miss lowers `loading`; a throw lowers `loading`, stores the
message in `error` and emits `error`; each path ends with `statechange`. -/
def showStreetView (s : StreetViewState) (hasProvider : Bool) (location : LngLat)
    (outcome : LookupOutcome) : StreetViewState × List StreetViewEvent :=
  if !hasProvider then (s, [])
  else
    let s1 := showStreetViewInFlight s location
    match outcome with
    | .found imagery =>
      ({ s1 with imagery := some imagery, loading := false },
       [.locationchange, .load, .statechange])
    | .miss =>
      ({ s1 with loading := false }, [.locationchange, .statechange])
    | .threw msg =>
      ({ s1 with loading := false, error := some msg },
       [.locationchange, .error, .statechange])

/-- `StreetViewControl.searchNearest` (the "search nearby" action): returns
silently when no location or no provider is set; otherwise a hit stores the
imagery and emits `load`, and every settle path ends with `statechange`. -/
def searchNearest (s : StreetViewState) (hasProvider : Bool)
    (outcome : LookupOutcome) : StreetViewState × List StreetViewEvent :=
  if s.location = none then (s, [])
  else if !hasProvider then (s, [])
  else
    match outcome with
    | .found imagery => ({ s with imagery := some imagery }, [.load, .statechange])
    | .miss => (s, [.statechange])
    | .threw _ => (s, [.statechange])

/-- `StreetViewControl.handleHeadingChange`: the viewer's heading callback
stores the heading and emits `headingchange` — and nothing else. -/
def handleHeadingChange (s : StreetViewState) (heading : ℚ) :
    StreetViewState × List StreetViewEvent :=
  ({ s with heading := heading }, [.headingchange])

/-- `StreetViewControl.clearStreetView`. -/
def clearStreetView (s : StreetViewState) : StreetViewState × List StreetViewEvent :=
  ({ s with location := none, imagery := none, heading := 0, error := none },
   [.statechange])

/-- `StreetViewControl.setProvider`: an early return when the provider is
already active; otherwise switch, and — with a location set — fire
`showStreetView` at it (the third component records the fired lookup's
location; the new provider is already active when it runs), then emit
`providerchange` and `statechange`. -/
def setProvider (s : StreetViewState) (provider : ProviderType) :
    StreetViewState × List StreetViewEvent × Option LngLat :=
  if s.activeProvider = provider then (s, [], none)
  else
    ({ s with activeProvider := provider },
     [.providerchange, .statechange],
     s.location)

/-- `StreetViewControl.expand`: an early return when already expanded;
otherwise lower `collapsed`, show the panel, and emit `expand` then
`statechange`. -/
def expand (s : StreetViewState) : StreetViewState × List StreetViewEvent :=
  if !s.collapsed then (s, [])
  else ({ s with collapsed := false }, [.expand, .statechange])

/-- `StreetViewControl.collapse`: an early return when already collapsed;
otherwise raise `collapsed`, hide the panel, and emit `collapse` then
`statechange`. -/
def collapse (s : StreetViewState) : StreetViewState × List StreetViewEvent :=
  if s.collapsed then (s, [])
  else ({ s with collapsed := true }, [.collapse, .statechange])

/-- C3: `loading` is raised exactly for the in-flight phase of
`showStreetView` and lowered on every settle path — imagery found, miss, or
throw; the provider-less early return leaves the state untouched; and no
other state-mutating method of the control ever touches `loading`. -/
theorem loading_flag_in_flight_only :
    ∀ (s : StreetViewState) (location : LngLat) (outcome : LookupOutcome)
      (hasProvider : Bool) (provider : ProviderType) (heading : ℚ),
      (showStreetViewInFlight s location).loading = true ∧
      (showStreetView s true location outcome).1.loading = false ∧
      showStreetView s false location outcome = (s, []) ∧
      (searchNearest s hasProvider outcome).1.loading = s.loading ∧
      (handleHeadingChange s heading).1.loading = s.loading ∧
      (clearStreetView s).1.loading = s.loading ∧
      (setProvider s provider).1.loading = s.loading ∧
      (expand s).1.loading = s.loading ∧
      (collapse s).1.loading = s.loading := by
  intro s location outcome hasProvider provider heading
  refine ⟨rfl, ?_, by simp [showStreetView], ?_, rfl, rfl, ?_, ?_, ?_⟩
  · cases outcome <;> simp [showStreetView, showStreetViewInFlight]
  · by_cases hloc : s.location = none
    · simp [searchNearest, hloc]
    · cases hasProvider <;> cases outcome <;> simp [searchNearest, hloc]
  · by_cases hp : s.activeProvider = provider <;> simp [setProvider, hp]
  · cases hc : s.collapsed <;> simp [expand, hc]
  · cases hc : s.collapsed <;> simp [collapse, hc]

/-- The state the control is constructed with (lines 41–50). -/
def initialState : StreetViewState :=
  { collapsed := true
    activeProvider := .google
    location := none
    imagery := none
    heading := 0
    pitch := 0
    loading := false
    error := none }

/-- A sample location and a state mid-session: panel open, Google active,
a location stored. -/
def sampleLocation : LngLat := { lng := -122, lat := 37 }

/-- See `sampleLocation`. -/
def stateWithLocation : StreetViewState :=
  { initialState with collapsed := false, location := some sampleLocation }

/-- C4 fails on the code: `handleHeadingChange` — the heading change coming
from the viewer — mutates the state record (`heading` 0 ↦ 90) yet emits no
`statechange`, only `headingchange`. -/
theorem handleHeadingChange_no_statechange :
    (handleHeadingChange initialState 90).1 ≠ initialState ∧
    StreetViewEvent.statechange ∉ (handleHeadingChange initialState 90).2 := by
  constructor
  · intro h
    have h90 : (90 : ℚ) = 0 := congrArg StreetViewState.heading h
    norm_num at h90
  · decide

/-- C4 (amended): every mutation of the state record through lookup
settling (`showStreetView`, `searchNearest`), provider switch,
expand/collapse and clear is followed by a `statechange` emission in the
same call — but the heading change from the viewer is the exception: it
mutates `heading` and emits only `headingchange`, never `statechange`. -/
theorem statechange_follows_mutation_except_heading :
    ∀ (s : StreetViewState) (hasProvider : Bool) (location : LngLat)
      (outcome : LookupOutcome) (provider : ProviderType) (heading : ℚ),
      ((showStreetView s hasProvider location outcome).1 ≠ s →
        StreetViewEvent.statechange ∈ (showStreetView s hasProvider location outcome).2) ∧
      ((searchNearest s hasProvider outcome).1 ≠ s →
        StreetViewEvent.statechange ∈ (searchNearest s hasProvider outcome).2) ∧
      ((setProvider s provider).1 ≠ s →
        StreetViewEvent.statechange ∈ (setProvider s provider).2.1) ∧
      ((expand s).1 ≠ s → StreetViewEvent.statechange ∈ (expand s).2) ∧
      ((collapse s).1 ≠ s → StreetViewEvent.statechange ∈ (collapse s).2) ∧
      StreetViewEvent.statechange ∈ (clearStreetView s).2 ∧
      (handleHeadingChange s heading).2 = [StreetViewEvent.headingchange] := by
  intro s hasProvider location outcome provider heading
  refine ⟨?_, ?_, ?_, ?_, ?_, ?_, rfl⟩
  · intro hne
    cases hasProvider
    · exact (hne (by simp [showStreetView])).elim
    · cases outcome <;> simp [showStreetView]
  · intro hne
    by_cases hloc : s.location = none
    · exact (hne (by simp [searchNearest, hloc])).elim
    · cases hasProvider
      · exact (hne (by simp [searchNearest, hloc])).elim
      · cases outcome <;> simp [searchNearest, hloc]
  · intro hne
    by_cases hp : s.activeProvider = provider
    · exact (hne (by simp [setProvider, hp])).elim
    · simp [setProvider, hp]
  · intro hne
    cases hc : s.collapsed
    · exact (hne (by simp [expand, hc])).elim
    · simp [expand, hc]
  · intro hne
    cases hc : s.collapsed
    · simp [collapse, hc]
    · exact (hne (by simp [collapse, hc])).elim
  · simp [clearStreetView]

/-- C7: switching to a different provider while a location is stored fires
a `showStreetView` lookup at that location, with the switched-to provider
already active, and emits `providerchange` and `statechange`. -/
theorem setProvider_refires_lookup (s : StreetViewState) (provider : ProviderType)
    (loc : LngLat) (hdiff : s.activeProvider ≠ provider)
    (hloc : s.location = some loc) :
    (setProvider s provider).2.2 = some loc ∧
    (setProvider s provider).1.activeProvider = provider ∧
    (setProvider s provider).2.1 =
      [StreetViewEvent.providerchange, StreetViewEvent.statechange] := by
  simp [setProvider, hdiff, hloc]

/-- C7 at a concrete input: Google active with a location stored, switching
to Mapillary. -/
theorem setProvider_refires_lookup_witness :
    (setProvider stateWithLocation ProviderType.mapillary).2.2 = some sampleLocation ∧
    (setProvider stateWithLocation ProviderType.mapillary).1.activeProvider =
      ProviderType.mapillary ∧
    (setProvider stateWithLocation ProviderType.mapillary).2.1 =
      [StreetViewEvent.providerchange, StreetViewEvent.statechange] :=
  setProvider_refires_lookup stateWithLocation ProviderType.mapillary sampleLocation
    (by decide) rfl

/-- C9: `expand` and `collapse` only ever touch the `collapsed` flag — the
seven data fields are preserved in every state — and when they do toggle it
they emit their own notification followed by `statechange`. -/
theorem expand_collapse_frame :
    ∀ s : StreetViewState,
      ((expand s).1.activeProvider = s.activeProvider ∧
       (expand s).1.location = s.location ∧
       (expand s).1.imagery = s.imagery ∧
       (expand s).1.heading = s.heading ∧
       (expand s).1.pitch = s.pitch ∧
       (expand s).1.loading = s.loading ∧
       (expand s).1.error = s.error) ∧
      ((collapse s).1.activeProvider = s.activeProvider ∧
       (collapse s).1.location = s.location ∧
       (collapse s).1.imagery = s.imagery ∧
       (collapse s).1.heading = s.heading ∧
       (collapse s).1.pitch = s.pitch ∧
       (collapse s).1.loading = s.loading ∧
       (collapse s).1.error = s.error) ∧
      (s.collapsed = true →
        (expand s).1.collapsed = false ∧
        (expand s).2 = [StreetViewEvent.expand, StreetViewEvent.statechange]) ∧
      (s.collapsed = false →
        (collapse s).1.collapsed = true ∧
        (collapse s).2 = [StreetViewEvent.collapse, StreetViewEvent.statechange]) := by
  intro s
  cases hc : s.collapsed <;> simp [expand, collapse, hc]

/-- C10: `setProvider` with the already-active provider, `expand` when
expanded and `collapse` when collapsed return before touching anything:
state unchanged, no event, no lookup — and hence all three operations are
idempotent. -/
theorem setProvider_expand_collapse_idempotent :
    ∀ (s : StreetViewState) (provider : ProviderType),
      (s.activeProvider = provider → setProvider s provider = (s, [], none)) ∧
      (s.collapsed = false → expand s = (s, [])) ∧
      (s.collapsed = true → collapse s = (s, [])) ∧
      setProvider (setProvider s provider).1 provider =
        ((setProvider s provider).1, [], none) ∧
      expand (expand s).1 = ((expand s).1, []) ∧
      collapse (collapse s).1 = ((collapse s).1, []) := by
  intro s provider
  refine ⟨?_, ?_, ?_, ?_, ?_, ?_⟩
  · intro h
    simp [setProvider, h]
  · intro h
    simp [expand, h]
  · intro h
    simp [collapse, h]
  · by_cases h : s.activeProvider = provider <;> simp [setProvider, h]
  · cases hc : s.collapsed <;> simp [expand, hc]
  · cases hc : s.collapsed <;> simp [collapse, hc]
